import Mathlib

/-!
Shallow embedding of the `qrhfz/json_parser` repository (src/tokenizer.rs,
src/parser.rs) and proofs about it.

Modelling conventions:
* The Rust tokenizer walks the source as a byte slice (`src.as_bytes()`).
  The model walks a `List Char`.  Every byte the tokenizer dispatches on is
  ASCII, and all inputs appearing in the theorems below are ASCII, where a
  byte and a `Char` coincide; positions (`index`) therefore also coincide.
* Rust panics (`todo!`, `unreachable!`, `.unwrap()` on a failed conversion)
  are modelled explicitly as a `panicked` outcome, distinct from the `Err`
  results the Rust functions return.
* Loops are modelled as fuel recursion; every loop in the source advances
  the cursor at least once per iteration, so fuel `src.length - current`
  makes the model agree with the loop exactly.  The parser's mutual
  recursion (`value`/`array`/`object`) likewise carries a fuel argument;
  `fuelOut` is a model artifact that a terminating Rust run never hits, and
  it is never conflated with an error or a panic.
* `f64` parsing (`text.parse::<f64>()` in `JsonParser::number`) is modelled
  as an exact rational: the acceptance of the numeric text follows Rust's
  grammar for finite decimal floats (the only texts the tokenizer can
  produce), while the value abstracts IEEE-754 rounding as the exact
  decimal value; no theorem below depends on rounded numeric values.
* `HashMap<String, JsonNode>` is modelled as an association list whose
  `insert` replaces the value at an existing key, matching
  `HashMap::insert`'s key semantics (the map's iteration order is not part
  of any claim).
-/

/-- Token payloads, as used by `tokenizer.rs` / `parser.rs`
(`TokenType` with `String`/`Number` carrying the raw source span and
`Error` carrying a diagnostic message). -/
inductive TokenType where
  | Error (message : String)
  | String (text : List Char)
  | Number (text : List Char)
  | Colon
  | Comma
  | LeftSquareBracket
  | RightSquareBracket
  | LeftCurlyBracket
  | RightCurlyBracket
  | True
  | False
  | Null
deriving DecidableEq, Repr

/-- One lexical token: 1-based line, 0-based byte offset, payload
(struct `Token` in the source). -/
structure Token where
  line : Nat
  index : Nat
  token_type : TokenType
deriving DecidableEq, Repr

/-- Tokenizer state: `struct Tokenizer { start, current, line, src }`. -/
structure Tokenizer where
  start : Nat
  current : Nat
  line : Nat
  src : List Char
deriving DecidableEq, Repr

def Tokenizer.new (src : List Char) : Tokenizer :=
  { start := 0, current := 0, line := 1, src := src }

/-- `fn at_end(&self) -> bool { self.current >= self.src.len() }` -/
def Tokenizer.at_end (t : Tokenizer) : Bool :=
  t.src.length ≤ t.current

/-- `fn peek(&self) -> Option<u8>` -/
def Tokenizer.peek (t : Tokenizer) : Option Char :=
  t.src[t.current]?

/-- `fn advance(&mut self) { self.current += 1 }` -/
def Tokenizer.advance (t : Tokenizer) : Tokenizer :=
  { t with current := t.current + 1 }

/-- `fn check_byte(&self, byte: u8) -> bool` -/
def Tokenizer.check_byte (t : Tokenizer) (byte : Char) : Bool :=
  match t.peek with
  | some c => c == byte
  | none => false

/-- `fn is_space(&self) -> bool` -/
def Tokenizer.is_space (t : Tokenizer) : Bool :=
  match t.peek with
  | some c => c == ' ' || c == '\n' || c == '\t' || c == '\r'
  | none => false

/-- `fn is_1to9(&self) -> bool` -/
def Tokenizer.is_1to9 (t : Tokenizer) : Bool :=
  match t.peek with
  | some c => decide ('1' ≤ c ∧ c ≤ '9')
  | none => false

/-- `fn is_zero(&self) -> bool` -/
def Tokenizer.is_zero (t : Tokenizer) : Bool :=
  match t.peek with
  | some c => c == '0'
  | none => false

/-- `fn is_digit(&self) -> bool { self.is_zero() || self.is_1to9() }` -/
def Tokenizer.is_digit (t : Tokenizer) : Bool :=
  t.is_zero || t.is_1to9

/-- `fn check(&self, comparison: &str) -> bool`: substring comparison at
the cursor, false when it would run past the end. -/
def Tokenizer.check (t : Tokenizer) (comparison : List Char) : Bool :=
  if t.src.length < t.current + comparison.length then false
  else (t.src.drop t.current).take comparison.length == comparison

/-- The span `&self.src[a..b]`. -/
def sliceSpan (src : List Char) (a b : Nat) : List Char :=
  (src.drop a).take (b - a)

/-- The loop of `fn skip_white_spaces(&mut self)`, with fuel.  Each
iteration requires `current < src.len()` and increments `current`, so fuel
`src.length - current` reproduces the loop exactly. -/
def Tokenizer.skipWsGo : Nat → Tokenizer → Tokenizer
  | 0, t => t
  | fuel + 1, t =>
    if t.current < t.src.length then
      let t1 := if t.peek == some '\n' then { t with line := t.line + 1 } else t
      if t1.is_space then Tokenizer.skipWsGo fuel { t1 with current := t1.current + 1 }
      else t1
    else t

/-- `fn skip_white_spaces(&mut self)` -/
def Tokenizer.skip_white_spaces (t : Tokenizer) : Tokenizer :=
  Tokenizer.skipWsGo (t.src.length - t.current) t

/-- The `while !self.at_end() && self.is_digit() { self.advance() }` loops
of `fn number`, with fuel. -/
def Tokenizer.consumeDigitsGo : Nat → Tokenizer → Tokenizer
  | 0, t => t
  | fuel + 1, t =>
    if !t.at_end && t.is_digit then Tokenizer.consumeDigitsGo fuel t.advance
    else t

def Tokenizer.consume_digits (t : Tokenizer) : Tokenizer :=
  Tokenizer.consumeDigitsGo (t.src.length - t.current) t

/-- `fn number(&mut self) -> Token`: scan a numeric span; the span is not
validated. -/
def Tokenizer.number (t0 : Tokenizer) : Token × Tokenizer :=
  let t := { t0 with start := t0.current }
  let t := if t.check_byte '-' then t.advance else t
  let t :=
    if t.is_zero then t.advance
    else if t.is_1to9 then t.advance.consume_digits
    else t
  if t.at_end then
    ({ line := t.line, index := t.start,
       token_type := TokenType.Number (sliceSpan t.src t.start t.current) }, t)
  else
    let t := if t.check_byte '.' then t.advance.consume_digits else t
    let t :=
      if t.check_byte 'E' || t.check_byte 'e' then
        let t := t.advance
        let t := if t.check_byte '+' || t.check_byte '-' then t.advance else t
        t.consume_digits
      else t
    ({ line := t.line, index := t.start,
       token_type := TokenType.Number (sliceSpan t.src t.start t.current) }, t)

/-- The scan loop of `fn string(&mut self)`, with fuel.  Every iteration
advances `current` by at least one, so fuel `src.length - current`
reproduces the loop (fuel 0 implies `at_end`, the unterminated case). -/
def Tokenizer.stringGo : Nat → Tokenizer → Token × Tokenizer
  | 0, t =>
    ({ line := t.line, index := t.start,
       token_type := TokenType.Error "unterminated string" }, t)
  | fuel + 1, t =>
    if !t.at_end then
      if t.check_byte '"' then
        let t := t.advance
        ({ line := t.line, index := t.start,
           token_type := TokenType.String (sliceSpan t.src t.start t.current) }, t)
      else if t.check_byte '\\' then
        Tokenizer.stringGo fuel t.advance.advance
      else
        Tokenizer.stringGo fuel t.advance
    else
      ({ line := t.line, index := t.start,
         token_type := TokenType.Error "unterminated string" }, t)

/-- `fn string(&mut self) -> Token`: consume the opening quote, then bytes
(a backslash consumes the following byte uninterpreted) until a closing
quote; an exhausted input yields the Error token "unterminated string". -/
def Tokenizer.string (t0 : Tokenizer) : Token × Tokenizer :=
  let t := { t0 with start := t0.current }
  let t := t.advance
  Tokenizer.stringGo (t.src.length - t.current) t

/-- The scan loop of `fn unknown_keyword(&mut self)`, with fuel. -/
def Tokenizer.unknownGo : Nat → Tokenizer → Tokenizer
  | 0, t => t
  | fuel + 1, t =>
    if !t.at_end then
      match t.peek with
      | none => t
      | some c =>
        if t.is_space then t
        else if c == '{' || c == '}' || c == '[' || c == ']' || c == ',' || c == ':' then t
        else Tokenizer.unknownGo fuel t.advance
    else t

/-- `fn unknown_keyword(&mut self) -> Token`: consume until whitespace or a
structural character, emit the Error token "unknown keyword". -/
def Tokenizer.unknown_keyword (t0 : Tokenizer) : Token × Tokenizer :=
  let t := { t0 with start := t0.current }
  let t := Tokenizer.unknownGo (t.src.length - t.current) t
  ({ line := t.line, index := t.start,
     token_type := TokenType.Error "unknown keyword" }, t)

/-- `pub fn next(&mut self) -> Option<Token>`: skip whitespace, then
dispatch on the current byte. -/
def Tokenizer.next (t0 : Tokenizer) : Option Token × Tokenizer :=
  let t := t0.skip_white_spaces
  if t.check_byte '-' || t.is_digit then
    let (tok, t) := t.number
    (some tok, t)
  else if t.check_byte '"' then
    let (tok, t) := t.string
    (some tok, t)
  else
    match t.peek with
    | none => (none, t)
    | some c =>
      let index := t.current
      if c == '{' then
        (some { line := t.line, index := index, token_type := TokenType.LeftCurlyBracket }, t.advance)
      else if c == '}' then
        (some { line := t.line, index := index, token_type := TokenType.RightCurlyBracket }, t.advance)
      else if c == '[' then
        (some { line := t.line, index := index, token_type := TokenType.LeftSquareBracket }, t.advance)
      else if c == ']' then
        (some { line := t.line, index := index, token_type := TokenType.RightSquareBracket }, t.advance)
      else if c == ':' then
        (some { line := t.line, index := index, token_type := TokenType.Colon }, t.advance)
      else if c == ',' then
        (some { line := t.line, index := index, token_type := TokenType.Comma }, t.advance)
      else if c == 't' then
        if t.check ['t', 'r', 'u', 'e'] then
          (some { line := t.line, index := index, token_type := TokenType.True },
           { t with current := t.current + 4 })
        else
          let (tok, t) := t.unknown_keyword
          (some tok, t)
      else if c == 'f' then
        if t.check ['f', 'a', 'l', 's', 'e'] then
          (some { line := t.line, index := index, token_type := TokenType.False },
           { t with current := t.current + 5 })
        else
          let (tok, t) := t.unknown_keyword
          (some tok, t)
      else if c == 'n' then
        if t.check ['n', 'u', 'l', 'l'] then
          (some { line := t.line, index := index, token_type := TokenType.Null },
           { t with current := t.current + 4 })
        else
          let (tok, t) := t.unknown_keyword
          (some tok, t)
      else
        let (tok, t) := t.unknown_keyword
        (some tok, t)

/-- ASCII decimal digit test on a `Char`. -/
def isDigitCh (c : Char) : Bool :=
  decide ('0' ≤ c ∧ c ≤ '9')

/-- Split a leading run of ASCII digits off a character list. -/
def spanDigits : List Char → List Char × List Char
  | [] => ([], [])
  | c :: rest =>
    if isDigitCh c then
      let (a, b) := spanDigits rest
      (c :: a, b)
    else ([], c :: rest)

/-- Numeric value of a digit run. -/
def natFromDigits (ds : List Char) : Nat :=
  ds.foldl (fun acc c => acc * 10 + (c.toNat - '0'.toNat)) 0

/-- The exact decimal value `±mant · 10^(±expDigits) / 10^fracLen` as a
rational. -/
def decimalValue (neg : Bool) (mant : Nat) (fracLen : Nat)
    (expNeg : Bool) (expVal : Nat) : Rat :=
  let se : Int := (if expNeg then -(expVal : Int) else (expVal : Int)) - (fracLen : Int)
  let mag : Rat :=
    if 0 ≤ se then ((mant * 10 ^ se.toNat : Nat) : Rat)
    else mkRat (mant : Int) (10 ^ (-se).toNat)
  if neg then -mag else mag

/-- Model of Rust's `str::parse::<f64>()` on the finite-decimal grammar
(`[+-]? digits? (. digits?)? ([eE] [+-]? digits)?`, at least one mantissa
digit, full-string match) — the only shape a tokenizer `Number` span can
take (`inf`/`nan` spellings are not producible by `Tokenizer::number`).
Acceptance follows Rust exactly; the value abstracts IEEE-754 rounding as
the exact decimal value. -/
def rustParseF64 (s : List Char) : Option Rat :=
  let (neg, s1) :=
    match s with
    | '-' :: r => (true, r)
    | '+' :: r => (false, r)
    | _ => (false, s)
  let (d1, r1) := spanDigits s1
  let (d2, r2) :=
    match r1 with
    | '.' :: rr => spanDigits rr
    | _ => ([], r1)
  if d1.isEmpty && d2.isEmpty then none
  else
    match r2 with
    | [] => some (decimalValue neg (natFromDigits (d1 ++ d2)) d2.length false 0)
    | e :: r3 =>
      if e == 'e' || e == 'E' then
        let (expNeg, r4) :=
          match r3 with
          | '-' :: rr => (true, rr)
          | '+' :: rr => (false, rr)
          | _ => (false, r3)
        let (d3, r5) := spanDigits r4
        if d3.isEmpty then none
        else
          match r5 with
          | [] => some (decimalValue neg (natFromDigits (d1 ++ d2)) d2.length expNeg (natFromDigits d3))
          | _ => none
      else none

/-- Hex digit value, as accepted by `u32::from_str_radix(_, 16)`. -/
def hexVal (c : Char) : Option Nat :=
  if '0' ≤ c ∧ c ≤ '9' then some (c.toNat - '0'.toNat)
  else if 'a' ≤ c ∧ c ≤ 'f' then some (c.toNat - 'a'.toNat + 10)
  else if 'A' ≤ c ∧ c ≤ 'F' then some (c.toNat - 'A'.toNat + 10)
  else none

def hexAccum : List Char → Nat → Option Nat
  | [], acc => some acc
  | c :: rest, acc =>
    match hexVal c with
    | some v => hexAccum rest (acc * 16 + v)
    | none => none

/-- Model of `u32::from_str_radix(s, 16)`: optional leading `+`, then at
least one hex digit (any other character fails).  Overflow cannot occur on
the at-most-4-character inputs `escape` passes in. -/
def fromStrRadix16 (s : List Char) : Option Nat :=
  let ds :=
    match s with
    | '+' :: r => r
    | _ => s
  match ds with
  | [] => none
  | _ => hexAccum ds 0

/-- Outcome of `JsonParser::escape` (which can return `Ok`, return `Err`,
or panic at its `unreachable!()` arm). -/
inductive EscRes where
  | ok : String → EscRes
  | err : String → EscRes
  | panicked : String → EscRes
deriving DecidableEq, Repr

/-- The decode loop of `fn escape(s: &str) -> Result<String, &str>`:
the remaining characters of the iterator, and the accumulated output. -/
def JsonParser.escGo : List Char → List Char → EscRes
  | [], _ => EscRes.err "unexpected string end"
  | c :: rest, acc =>
    if c == '"' then EscRes.ok (String.mk acc)
    else if c != '\\' then JsonParser.escGo rest (acc ++ [c])
    else
      match rest with
      | [] => EscRes.err "invalid token"
      | e :: rest2 =>
        if e == '"' then JsonParser.escGo rest2 (acc ++ ['"'])
        else if e == '\\' then JsonParser.escGo rest2 (acc ++ ['\\'])
        else if e == '/' then JsonParser.escGo rest2 (acc ++ ['/'])
        else if e == 'n' then JsonParser.escGo rest2 (acc ++ ['\n'])
        else if e == 'b' then JsonParser.escGo rest2 acc.dropLast
        else if e == 'f' then JsonParser.escGo rest2 (acc ++ ['\x0C'])
        else if e == 'r' then JsonParser.escGo rest2 (acc ++ ['\r'])
        else if e == 't' then JsonParser.escGo rest2 (acc ++ ['\t'])
        else if e == 'u' then
          match rest2 with
          | h1 :: h2 :: h3 :: h4 :: rest3 =>
            match fromStrRadix16 [h1, h2, h3, h4] with
            | none => EscRes.err "parse \\u error"
            | some x =>
              if h : x.isValidChar then JsonParser.escGo rest3 (acc ++ [Char.ofNatAux x h])
              else EscRes.err "parse \\u error"
          | _ => EscRes.err "unexpected eof"
        else EscRes.panicked "internal error: entered unreachable code"

/-- `fn escape(s: &str) -> Result<String, &str>`: consume the first
character (the opening quote), then decode until an unescaped quote. -/
def JsonParser.escape (s : List Char) : EscRes :=
  JsonParser.escGo (s.drop 1) []


/-- The parse result tree: `pub enum JsonNode` (`Object` modelled as an
association list with `HashMap::insert` key semantics, see header). -/
inductive JsonNode where
  | String : String → JsonNode
  | Number : Rat → JsonNode
  | Array : List JsonNode → JsonNode
  | Object : List (String × JsonNode) → JsonNode
  | Bool : Bool → JsonNode
  | Null : JsonNode

/-- `pub fn as_string(&self) -> Option<&String>` (top-level name: inside
the `JsonNode` namespace the constructor `JsonNode.String` would shadow
the `String` type). -/
def as_string : JsonNode → Option String
  | JsonNode.String s => some s
  | _ => none

/-- `pub fn as_number(&self) -> Option<&f64>` -/
def as_number : JsonNode → Option Rat
  | JsonNode.Number n => some n
  | _ => none

/-- `pub fn as_bool(&self) -> Option<&bool>` -/
def as_bool : JsonNode → Option Bool
  | JsonNode.Bool b => some b
  | _ => none

/-- `pub fn as_vec(&self) -> Option<&Vec<JsonNode>>` -/
def as_vec : JsonNode → Option (List JsonNode)
  | JsonNode.Array vec => some vec
  | _ => none

/-- `pub fn as_map(&self) -> Option<&HashMap<String, JsonNode>>` -/
def as_map : JsonNode → Option (List (String × JsonNode))
  | JsonNode.Object map => some map
  | _ => none

/-- `pub fn is_null(&self) -> bool` -/
def is_null : JsonNode → Bool
  | JsonNode.Null => true
  | _ => false

/-- `struct JsonError { message, token }` -/
structure JsonError where
  message : String
  token : Option Token
deriving DecidableEq, Repr

/-- Outcome of a parser production: the Rust `Result<_, JsonError>`
extended with an explicit panic outcome and the fuel artifact. -/
inductive PRes (α : Type) where
  | ok : α → PRes α
  | err : JsonError → PRes α
  | panicked : String → PRes α
  | fuelOut : PRes α

/-- `HashMap::insert` key semantics on the association-list model:
replace the value at an existing key, otherwise add the pair. -/
def mapInsert (m : List (String × JsonNode)) (k : String) (v : JsonNode) :
    List (String × JsonNode) :=
  match m with
  | [] => [(k, v)]
  | (k', v') :: rest =>
    if k' = k then (k, v) :: rest else (k', v') :: mapInsert rest k v

/-- `HashMap::get` on the association-list model. -/
def mapGet (m : List (String × JsonNode)) (k : String) : Option JsonNode :=
  match m with
  | [] => none
  | (k', v) :: rest => if k' = k then some v else mapGet rest k

/-- Parser state: `struct JsonParser { tokenizer, buffer }` (the `VecDeque`
pushback queue as a list, front at the head). -/
structure JsonParser where
  tokenizer : Tokenizer
  buffer : List Token

/-- `JsonParser::new` -/
def JsonParser.new (source : String) : JsonParser :=
  { tokenizer := Tokenizer.new source.data, buffer := [] }

/-- `fn advance(&mut self) -> Option<Token>`: pop the pushback queue if
nonempty, else pull from the tokenizer. -/
def JsonParser.advance (p : JsonParser) : Option Token × JsonParser :=
  match p.buffer with
  | tok :: rest => (some tok, { p with buffer := rest })
  | [] =>
    match p.tokenizer.next with
    | (o, t) => (o, { p with tokenizer := t })

/-- `fn peek(&mut self) -> Option<&Token>`: pull from the tokenizer and
push onto the back of the queue. -/
def JsonParser.peek (p : JsonParser) : Option Token × JsonParser :=
  match p.tokenizer.next with
  | (some tok, t) => (some tok, { tokenizer := t, buffer := p.buffer ++ [tok] })
  | (none, t) => (none, { p with tokenizer := t })

/-- `fn number(s: &str) -> JsonNode { JsonNode::Number(s.parse::<f64>().unwrap()) }`
— the `unwrap` panics when the raw span does not parse as a float. -/
def JsonParser.number (s : List Char) : PRes JsonNode :=
  match rustParseF64 s with
  | some q => PRes.ok (JsonNode.Number q)
  | none => PRes.panicked "called Result::unwrap on an Err value"

/-- `fn string(s: &str) -> Result<JsonNode, JsonError>`: decode the raw
span; a decode error is reported without a token. -/
def JsonParser.string (s : List Char) : PRes JsonNode :=
  match JsonParser.escape s with
  | EscRes.ok str => PRes.ok (JsonNode.String str)
  | EscRes.err message => PRes.err { message := message, token := none }
  | EscRes.panicked m => PRes.panicked m

mutual

/-- `fn value(&mut self) -> Result<JsonNode, JsonError>`: dispatch on the
next token.  The first argument is fuel for the mutual recursion. -/
def JsonParser.value : Nat → JsonParser → PRes (JsonNode × JsonParser)
  | 0, _ => PRes.fuelOut
  | fuel + 1, p =>
    match p.advance with
    | (none, _) => PRes.err { message := "eof", token := none }
    | (some token, p) =>
      match token.token_type with
      | TokenType.Number text =>
        match JsonParser.number text with
        | PRes.ok v => PRes.ok (v, p)
        | PRes.err e => PRes.err e
        | PRes.panicked m => PRes.panicked m
        | PRes.fuelOut => PRes.fuelOut
      | TokenType.String text =>
        match JsonParser.string text with
        | PRes.ok v => PRes.ok (v, p)
        | PRes.err e => PRes.err e
        | PRes.panicked m => PRes.panicked m
        | PRes.fuelOut => PRes.fuelOut
      | TokenType.True => PRes.ok (JsonNode.Bool true, p)
      | TokenType.False => PRes.ok (JsonNode.Bool false, p)
      | TokenType.Null => PRes.ok (JsonNode.Null, p)
      | TokenType.LeftSquareBracket => JsonParser.array fuel p []
      | TokenType.LeftCurlyBracket => JsonParser.object fuel p []
      | TokenType.RightSquareBracket => PRes.err { message := "Unexpected ]", token := some token }
      | TokenType.RightCurlyBracket => PRes.err { message := "Unexpected [", token := some token }
      | TokenType.Comma => PRes.err { message := "Unexpected comma", token := some token }
      | TokenType.Colon => PRes.err { message := "Unexpected colon", token := some token }
      | TokenType.Error message => PRes.err { message := message, token := some token }

/-- The loop of `fn array(&mut self)`, one recursive call per iteration;
`arr` is the accumulated element vector.  The non-comma non-close arm
after an element is the source's `todo!()`, a panic. -/
def JsonParser.array : Nat → JsonParser → List JsonNode → PRes (JsonNode × JsonParser)
  | 0, _, _ => PRes.fuelOut
  | fuel + 1, p, arr =>
    match p.peek with
    | (none, _) => PRes.err { message := "eof", token := none }
    | (some tok, p) =>
      match tok.token_type with
      | TokenType.RightSquareBracket =>
        match p.advance with
        | (_, p) => PRes.ok (JsonNode.Array arr, p)
      | _ =>
        match JsonParser.value fuel p with
        | PRes.err e => PRes.err e
        | PRes.panicked m => PRes.panicked m
        | PRes.fuelOut => PRes.fuelOut
        | PRes.ok (v, p) =>
          match p.advance with
          | (none, _) => PRes.err { message := "unexpected eof", token := none }
          | (some token, p) =>
            match token.token_type with
            | TokenType.RightSquareBracket => PRes.ok (JsonNode.Array (arr ++ [v]), p)
            | TokenType.Comma => JsonParser.array fuel p (arr ++ [v])
            | _ => PRes.panicked "not yet implemented"

/-- The loop of `fn object(&mut self)`, one recursive call per iteration;
`obj` is the accumulated map.  Note the "expected comma or object close"
arm attaches `token: None` even though the offending token is in hand. -/
def JsonParser.object : Nat → JsonParser → List (String × JsonNode) → PRes (JsonNode × JsonParser)
  | 0, _, _ => PRes.fuelOut
  | fuel + 1, p, obj =>
    match p.advance with
    | (none, _) => PRes.err { message := "eof", token := none }
    | (some token, p) =>
      match token.token_type with
      | TokenType.RightCurlyBracket => PRes.ok (JsonNode.Object obj, p)
      | TokenType.String text =>
        match JsonParser.escape text with
        | EscRes.panicked m => PRes.panicked m
        | EscRes.err _ => PRes.err { message := "invalid string", token := some token }
        | EscRes.ok key =>
          match p.advance with
          | (none, _) => PRes.err { message := "expect :", token := none }
          | (some token2, p) =>
            match token2.token_type with
            | TokenType.Colon =>
              match JsonParser.value fuel p with
              | PRes.err e => PRes.err e
              | PRes.panicked m => PRes.panicked m
              | PRes.fuelOut => PRes.fuelOut
              | PRes.ok (v, p) =>
                match p.advance with
                | (none, _) => PRes.err { message := "unexpected eof", token := none }
                | (some token3, p) =>
                  match token3.token_type with
                  | TokenType.RightCurlyBracket => PRes.ok (JsonNode.Object (mapInsert obj key v), p)
                  | TokenType.Comma => JsonParser.object fuel p (mapInsert obj key v)
                  | _ => PRes.err { message := "expected comma or object close", token := none }
            | _ => PRes.err { message := "expect :", token := some token2 }
      | _ => PRes.err { message := "object key is not string", token := some token }

end

/-- The error formatting of `pub fn parse(&mut self)`:
with a token, "error: {message}, at index: {index}, line: {line}";
without, "error: {message}" (braces here describe the Rust format string). -/
def JsonParser.formatError (e : JsonError) : String :=
  match e.token with
  | some token =>
    "error: " ++ e.message ++ ", at index: " ++ toString token.index
      ++ ", line: " ++ toString token.line
  | none => "error: " ++ e.message

/-- Observable outcome of `pub fn parse(source: &str)`: the Rust
`Result<JsonNode, String>` plus the explicit panic outcome (and the fuel
artifact, never hit by a terminating run). -/
inductive ParseOutcome where
  | ok : JsonNode → ParseOutcome
  | err : String → ParseOutcome
  | panicked : String → ParseOutcome
  | fuelOut : ParseOutcome

/-- `pub fn parse(source: &str) -> Result<JsonNode, String>`: run `value`
once from a fresh parser (fuel `source.len() + 2` covers every terminating
run: each production step consumes at least one source byte) and format
any error; trailing input is never examined. -/
def parse (source : String) : ParseOutcome :=
  match JsonParser.value (source.data.length + 2) (JsonParser.new source) with
  | PRes.ok (v, _) => ParseOutcome.ok v
  | PRes.err e => ParseOutcome.err (JsonParser.formatError e)
  | PRes.panicked m => ParseOutcome.panicked m
  | PRes.fuelOut => ParseOutcome.fuelOut

/-- Whitespace characters recognized by `Tokenizer::is_space` (space,
newline, tab, carriage return). -/
abbrev isWsChar (c : Char) : Prop :=
  c = ' ' ∨ c = '\t' ∨ c = '\r' ∨ c = '\n'

/-- Projection of a parser-production outcome onto the produced node,
discarding the final cursor state. -/
def PRes.okNode : PRes (JsonNode × JsonParser) → Option JsonNode
  | PRes.ok (v, _) => some v
  | _ => none

/-- Key uniqueness of the object a production returned (vacuous for
non-`ok`, non-`Object` outcomes). -/
def resultObjKeysNodup : PRes (JsonNode × JsonParser) → Prop
  | PRes.ok (JsonNode.Object m, _) => (m.map Prod.fst).Nodup
  | _ => True

/-- Helper: a key of `mapInsert m k v` is `k` or a key of `m`. -/
theorem mem_keys_mapInsert {m : List (String × JsonNode)} {k x : String} {v : JsonNode}
    (h : x ∈ (mapInsert m k v).map Prod.fst) : x = k ∨ x ∈ m.map Prod.fst := by
  induction m with
  | nil => simpa [mapInsert] using h
  | cons hd tl ih =>
    obtain ⟨k', v'⟩ := hd
    by_cases hk : k' = k
    · subst hk
      simpa [mapInsert] using h
    · simp only [mapInsert, if_neg hk, List.map_cons, List.mem_cons] at h
      rcases h with h | h
      · exact Or.inr (by simp [h])
      · rcases ih h with h | h
        · exact Or.inl h
        · exact Or.inr (by simp [h])

/-- Helper: `mapInsert` preserves key uniqueness. -/
theorem nodup_keys_mapInsert {m : List (String × JsonNode)} {k : String} {v : JsonNode}
    (h : (m.map Prod.fst).Nodup) : ((mapInsert m k v).map Prod.fst).Nodup := by
  induction m with
  | nil => simp [mapInsert]
  | cons hd tl ih =>
    obtain ⟨k', v'⟩ := hd
    simp only [List.map_cons, List.nodup_cons] at h
    by_cases hk : k' = k
    · subst hk
      simpa [mapInsert] using h
    · simp only [mapInsert, if_neg hk, List.map_cons, List.nodup_cons]
      refine ⟨fun hmem => ?_, ih h.2⟩
      rcases mem_keys_mapInsert hmem with rfl | hx
      · exact hk rfl
      · exact h.1 hx

/-- Helper: looking up the just-inserted key yields the just-inserted
value (`HashMap::insert` overwrites). -/
theorem mapGet_mapInsert_self (m : List (String × JsonNode)) (k : String) (v : JsonNode) :
    mapGet (mapInsert m k v) k = some v := by
  induction m with
  | nil => simp [mapInsert, mapGet]
  | cons hd tl ih =>
    obtain ⟨k', v'⟩ := hd
    by_cases hk : k' = k
    · subst hk
      simp [mapInsert, mapGet]
    · simp [mapInsert, mapGet, hk, ih]

/-- Helper: every successful return of the object production has unique
keys, provided the accumulator it starts from does (the production only
ever extends the accumulator through `mapInsert`). -/
theorem object_result_keys_nodup :
    ∀ (fuel : Nat) (p : JsonParser) (obj : List (String × JsonNode)),
      (obj.map Prod.fst).Nodup → resultObjKeysNodup (JsonParser.object fuel p obj) := by
  intro fuel
  induction fuel with
  | zero =>
    intro p obj _
    simp [JsonParser.object, resultObjKeysNodup]
  | succ n ih =>
    intro p obj h
    rw [JsonParser.object]
    split
    · simp [resultObjKeysNodup]
    · split
      · exact h
      · split
        · simp [resultObjKeysNodup]
        · simp [resultObjKeysNodup]
        · split
          · simp [resultObjKeysNodup]
          · split
            · split
              · simp [resultObjKeysNodup]
              · simp [resultObjKeysNodup]
              · simp [resultObjKeysNodup]
              · split
                · simp [resultObjKeysNodup]
                · split
                  · exact nodup_keys_mapInsert h
                  · exact ih _ _ (nodup_keys_mapInsert h)
                  · simp [resultObjKeysNodup]
            · simp [resultObjKeysNodup]
      · simp [resultObjKeysNodup]

/-- Helper: on an all-whitespace source the skip loop runs to the end of
the input without changing the source. -/
theorem skipWsGo_all_ws :
    ∀ (fuel : Nat) (t : Tokenizer), (∀ c ∈ t.src, isWsChar c) →
      t.src.length ≤ t.current + fuel →
      (Tokenizer.skipWsGo fuel t).src = t.src ∧
        t.src.length ≤ (Tokenizer.skipWsGo fuel t).current := by
  intro fuel
  induction fuel with
  | zero =>
    intro t _ hle
    exact ⟨rfl, by simpa using hle⟩
  | succ n ih =>
    intro t h hle
    rw [Tokenizer.skipWsGo]
    by_cases hc : t.current < t.src.length
    · have hget : t.src[t.current]? = some t.src[t.current] := List.getElem?_eq_getElem hc
      have hws : isWsChar t.src[t.current] := h _ (List.getElem_mem hc)
      have hsp : ∀ u : Tokenizer, u.src = t.src → u.current = t.current → u.is_space = true := by
        intro u hsrc hcur
        unfold Tokenizer.is_space Tokenizer.peek
        rw [hsrc, hcur, hget]
        rcases hws with h' | h' | h' | h' <;> rw [h'] <;> rfl
      simp only [if_pos hc]
      by_cases hn : t.peek == some '\n'
      · rw [if_pos hn, hsp { t with line := t.line + 1 } rfl rfl, if_pos rfl]
        have := ih { t with line := t.line + 1, current := t.current + 1 } (by simpa using h)
          (by simp; omega)
        simpa using this
      · rw [if_neg hn, hsp t rfl rfl, if_pos rfl]
        have := ih { t with current := t.current + 1 } (by simpa using h) (by simp; omega)
        simpa using this
    · rw [if_neg hc]
      exact ⟨rfl, by omega⟩

/-- Helper: on an all-whitespace source `Tokenizer::next` returns no token
(and leaves the cursor where the skip loop put it). -/
theorem tokenizer_next_all_ws (t : Tokenizer) (h : ∀ c ∈ t.src, isWsChar c) :
    t.next = (none, t.skip_white_spaces) := by
  have hspec := skipWsGo_all_ws (t.src.length - t.current) t h (by omega)
  have hsrc : (t.skip_white_spaces).src = t.src := hspec.1
  have hcur : (t.skip_white_spaces).src.length ≤ (t.skip_white_spaces).current := by
    rw [hsrc]; exact hspec.2
  have hpeek : (t.skip_white_spaces).peek = none := by
    unfold Tokenizer.peek
    exact List.getElem?_eq_none hcur
  unfold Tokenizer.next
  simp only [Tokenizer.check_byte, Tokenizer.is_digit, Tokenizer.is_zero, Tokenizer.is_1to9,
    hpeek, Bool.or_self, Bool.false_or, if_neg]
  rfl

/-- C1: in the array production, when a parsed-and-appended element is
followed by a token that is neither comma nor close bracket, the source
does NOT return a structural error: it hits the `todo!()` placeholder and
panics (the structural-error return is commented out at that arm).  The
model evaluates `parse "[1 2]"` to the panic outcome carrying the
`todo!()` message, refuting an `Err` result. -/
theorem c1_array_bad_separator_panics :
    parse "[1 2]" = ParseOutcome.panicked "not yet implemented" := by rfl

/-- C2: for every input made only of whitespace bytes (space, tab,
carriage return, newline) — including the empty input — `parse` returns
the positionless error string "error: eof" (the `UnexpectedEndOfInput`
kind) and in particular does not panic. -/
theorem c2_whitespace_only_input_yields_eof_error (s : String)
    (h : ∀ c ∈ s.data, isWsChar c) :
    parse s = ParseOutcome.err "error: eof" := by
  have hnext : (Tokenizer.new s.data).next = (none, (Tokenizer.new s.data).skip_white_spaces) :=
    tokenizer_next_all_ws (Tokenizer.new s.data) (by simpa [Tokenizer.new] using h)
  have hval : JsonParser.value (s.data.length + 2) (JsonParser.new s) =
      PRes.err { message := "eof", token := none } := by
    show JsonParser.value ((s.data.length + 1) + 1) (JsonParser.new s) =
      PRes.err { message := "eof", token := none }
    rw [JsonParser.value]
    simp only [JsonParser.advance, JsonParser.new]
    rw [hnext]
  unfold parse
  rw [hval]
  rfl

/-- C2 witness: the single-space input. -/
theorem c2_whitespace_only_input_yields_eof_error_witness :
    parse " " = ParseOutcome.err "error: eof" :=
  c2_whitespace_only_input_yields_eof_error " " (by decide)

/-- C3: the tokenizer does NOT restrict the character after a backslash —
on the four-byte source of a quote, a backslash, the letter q and a quote
it emits a `String` token carrying that raw span, and decoding that very
token reaches the escape decoder's supposedly unreachable arm, a panic.
This refutes the claim that the branch is never reached on tokenizer
output. -/
theorem c3_escape_unreachable_branch_reached :
    (Tokenizer.new "\"\\q\"".data).next.fst =
      some { line := 1, index := 0, token_type := TokenType.String "\"\\q\"".data } ∧
    parse "\"\\q\"" = ParseOutcome.panicked "internal error: entered unreachable code" :=
  ⟨rfl, rfl⟩

/-- C4 counterexample: on the input ".5" the tokenizer's `next()` does NOT
emit a `Number` token carrying the raw text — a leading dot never enters
the number scanner (it is neither `-` nor a digit), so `next()` emits the
Error token "unknown keyword" instead. -/
theorem c4_counterexample_dot5_is_error_token :
    (Tokenizer.new ".5".data).next.fst =
      some { line := 1, index := 0, token_type := TokenType.Error "unknown keyword" } := by
  rfl

/-- C4 (amended): the number scanner itself performs no validation — an
input that does start with `-` or a digit yields a `Number` token carrying
the raw (possibly malformed) text, e.g. a lone `-`, and it is the later
float conversion that fails on it (a panic through `unwrap`); but a
malformed numeric text starting with a dot, such as ".5", never reaches
the number scanner and is emitted as an "unknown keyword" Error token. -/
theorem c4_number_scanner_no_validation :
    (Tokenizer.new "-".data).next.fst =
      some { line := 1, index := 0, token_type := TokenType.Number ['-'] } ∧
    parse "-" = ParseOutcome.panicked "called Result::unwrap on an Err value" ∧
    (Tokenizer.new ".5".data).next.fst =
      some { line := 1, index := 0, token_type := TokenType.Error "unknown keyword" } :=
  ⟨rfl, rfl, rfl⟩

/-- C5 counterexample: the object production's "expected comma or object
close" error is raised with the offending token in hand, yet the error
returned to the caller is the positionless "error: expected comma or
object close" — no ", at index: _, line: _" suffix — because that arm
attaches `token: None`. -/
theorem c5_counterexample_positionless_comma_close_error :
    parse "\x7b\"a\":1 2\x7d" = ParseOutcome.err "error: expected comma or object close" := by
  rfl

/-- C5 (amended): whenever a parse error carries a token, the top-level
formatting does include that token's byte offset and line, as
"error: {message}, at index: {index}, line: {line}"; the object
production's "expected comma or object close" arm, however, discards the
in-hand offending token (it attaches no token), so that error is reported
positionless. -/
theorem c5_error_formatting :
    (∀ (msg : String) (tok : Token),
        JsonParser.formatError { message := msg, token := some tok } =
          "error: " ++ msg ++ ", at index: " ++ toString tok.index
            ++ ", line: " ++ toString tok.line) ∧
    parse "\x7b\"a\":1 2\x7d" = ParseOutcome.err "error: expected comma or object close" :=
  ⟨fun _ _ => rfl, rfl⟩

/-- C5 witness: a concrete token-carrying error is formatted with index
and line. -/
theorem c5_error_formatting_witness :
    JsonParser.formatError
        { message := "m", token := some { line := 3, index := 7, token_type := TokenType.Colon } } =
      "error: m, at index: 7, line: 3" :=
  c5_error_formatting.1 "m" { line := 3, index := 7, token_type := TokenType.Colon }

/-- C6: every successfully parsed object has unique keys (any run of the
object production starting from a unique-key accumulator — in particular
the empty one every `value` dispatch passes — returns a unique-key map);
the map insertion is last-write-wins (looking up an inserted key yields
the newly inserted value); and on a source with a duplicated key — even
duplicated only after escape decoding — the resulting object binds the
later occurrence's value. -/
theorem c6_object_keys_unique_last_write_wins :
    (∀ (fuel : Nat) (p : JsonParser) (obj : List (String × JsonNode)),
        (obj.map Prod.fst).Nodup → resultObjKeysNodup (JsonParser.object fuel p obj)) ∧
    (∀ (m : List (String × JsonNode)) (k : String) (v : JsonNode),
        mapGet (mapInsert m k v) k = some v) ∧
    parse "\x7b\"a\":1,\"a\":2\x7d" =
      ParseOutcome.ok (JsonNode.Object [("a", JsonNode.Number 2)]) ∧
    parse "\x7b\"a\":1,\"\\u0061\":2\x7d" =
      ParseOutcome.ok (JsonNode.Object [("a", JsonNode.Number 2)]) :=
  ⟨object_result_keys_nodup, mapGet_mapInsert_self, rfl, rfl⟩

/-- C6 witness: a concrete run of the object production from the empty
accumulator. -/
theorem c6_object_keys_unique_last_write_wins_witness :
    resultObjKeysNodup (JsonParser.object 5 (JsonParser.new "\"k\":1\x7d") []) :=
  c6_object_keys_unique_last_write_wins.1 5 (JsonParser.new "\"k\":1\x7d") [] (by simp)

/-- C7: the escape decoder maps each recognized escape to its specified
output — quote, backslash, slash, newline, carriage return, tab,
form-feed (U+000C), `\uXXXX` to the corresponding scalar character — and
`\b` removes the previously appended output character (a no-op on an
empty buffer).  The token containing every recognized escape decodes to
the exact expected character sequence (the `\b` cancelling the `\n`
appended just before it). -/
theorem c7_escape_decoder_mappings :
    JsonParser.escape
        ['"', '\\', '"', '\\', '\\', '\\', '/', '\\', 'n', '\\', 'b', '\\', 'f',
         '\\', 'r', '\\', 't', '\\', 'u', '0', '0', '4', '1', '"'] =
      EscRes.ok (String.mk ['"', '\\', '/', '\x0C', '\r', '\t', 'A']) ∧
    JsonParser.escape ['"', '\\', '"', '"'] = EscRes.ok "\"" ∧
    JsonParser.escape ['"', '\\', '\\', '"'] = EscRes.ok "\\" ∧
    JsonParser.escape ['"', '\\', '/', '"'] = EscRes.ok "/" ∧
    JsonParser.escape ['"', '\\', 'n', '"'] = EscRes.ok "\n" ∧
    JsonParser.escape ['"', '\\', 'r', '"'] = EscRes.ok "\r" ∧
    JsonParser.escape ['"', '\\', 't', '"'] = EscRes.ok "\t" ∧
    JsonParser.escape ['"', '\\', 'f', '"'] = EscRes.ok (String.mk ['\x0C']) ∧
    JsonParser.escape ['"', '\\', 'u', '0', '0', '4', '1', '"'] = EscRes.ok "A" ∧
    JsonParser.escape ['"', 'x', '\\', 'b', '"'] = EscRes.ok "" ∧
    JsonParser.escape ['"', '\\', 'b', '"'] = EscRes.ok "" :=
  ⟨rfl, rfl, rfl, rfl, rfl, rfl, rfl, rfl, rfl, rfl, rfl⟩

/-- C8: the empty object source parses to an empty `Object`, the empty
array source parses to an empty `Array`, and the object binding key "a"
to an empty array parses accordingly. -/
theorem c8_parse_empty_containers :
    parse "\x7b\x7d" = ParseOutcome.ok (JsonNode.Object []) ∧
    parse "[]" = ParseOutcome.ok (JsonNode.Array []) ∧
    parse "\x7b\"a\":[]\x7d" =
      ParseOutcome.ok (JsonNode.Object [("a", JsonNode.Array [])]) :=
  ⟨rfl, rfl, rfl⟩

/-- C9: every accessor is a total function that returns the contained
data exactly when the variant matches and no value (respectively `false`
for the null check) otherwise. -/
theorem c9_accessors_total (v : JsonNode) :
    (∀ s, as_string v = some s ↔ v = JsonNode.String s) ∧
    (∀ q, as_number v = some q ↔ v = JsonNode.Number q) ∧
    (∀ b, as_bool v = some b ↔ v = JsonNode.Bool b) ∧
    (∀ xs, as_vec v = some xs ↔ v = JsonNode.Array xs) ∧
    (∀ m, as_map v = some m ↔ v = JsonNode.Object m) ∧
    (is_null v = true ↔ v = JsonNode.Null) := by
  cases v <;>
    simp [as_string, as_number, as_bool, as_vec, as_map, is_null]

/-- C9 witness: the accessor characterization at the `Null` node. -/
theorem c9_accessors_total_witness :
    is_null JsonNode.Null = true ↔ JsonNode.Null = JsonNode.Null :=
  (c9_accessors_total JsonNode.Null).2.2.2.2.2

/-- C10: `parse` never checks that the input is exhausted — whenever the
single `value()` call succeeds, `parse` returns its node no matter what
(if anything) remains unconsumed; concretely, "1 2" parses to the number
1 and an empty object followed by garbage parses to the empty object. -/
theorem c10_trailing_input_ignored :
    (∀ (s : String) (v : JsonNode),
        (JsonParser.value (s.data.length + 2) (JsonParser.new s)).okNode = some v →
        parse s = ParseOutcome.ok v) ∧
    parse "1 2" = ParseOutcome.ok (JsonNode.Number 1) ∧
    parse "\x7b\x7d garbage" = ParseOutcome.ok (JsonNode.Object []) := by
  refine ⟨?_, by rfl, by rfl⟩
  intro s v h
  unfold parse
  cases hval : JsonParser.value (s.data.length + 2) (JsonParser.new s) with
  | ok pr =>
    obtain ⟨a, b⟩ := pr
    rw [hval] at h
    simp only [PRes.okNode, Option.some.injEq] at h
    rw [h]
  | err e => rw [hval] at h; simp [PRes.okNode] at h
  | panicked m => rw [hval] at h; simp [PRes.okNode] at h
  | fuelOut => rw [hval] at h; simp [PRes.okNode] at h

/-- C10 witness: the trailing "2" of "1 2" is ignored. -/
theorem c10_trailing_input_ignored_witness :
    parse "1 2" = ParseOutcome.ok (JsonNode.Number 1) :=
  c10_trailing_input_ignored.1 "1 2" (JsonNode.Number 1) rfl
